import Mathlib

/- Shallow embedding of the field-to-page geometry and rendering engine of
the pdf-signature-system backend (backend/server.js).

JavaScript numbers are modelled as exact rationals (ℚ): every claim under
study is an algebraic identity or inequality about the idealized arithmetic
of the transform, and the source performs no operation that distinguishes
binary floating point from exact arithmetic at the granularity of the spec.

The pdf-lib library is external to the repository; its two embedding entry
points (embedPng / embedJpg) and the dimensions of an embedded signature
image are modelled as parameters (an environment record `PdfLib` and an
`Option (ℚ × ℚ)` of intrinsic dimensions), with `none` standing for a
thrown-and-caught embedding error. -/

namespace PdfSign

/-- A JavaScript value as it can appear in `field.value` of a request body:
a string, a number, a boolean, `null`, or absent (`undefined`). -/
inductive JsValue where
  | str : String → JsValue
  | num : ℚ → JsValue
  | bool : Bool → JsValue
  | null : JsValue
  | undefined : JsValue
deriving Repr, DecidableEq

/-- JavaScript truthiness of a `JsValue`, as used by conditions such as
`field.type === 'text' && field.value`. -/
def JsValue.truthy : JsValue → Bool
  | .str s => !s.isEmpty
  | .num q => if q = 0 then false else true
  | .bool b => b
  | .null => false
  | .undefined => false

/-- A rectangle record `{x, y, width, height}`. The same shape serves as the
normalized input box (fractions of the page, top-left origin) and as the
absolute output box (PDF points, bottom-left origin), exactly as the
JavaScript objects do. -/
structure Rect where
  x : ℚ
  y : ℚ
  width : ℚ
  height : ℚ
deriving Repr, DecidableEq

/-- `convertCoordinates` from backend/server.js: converts percentage
coordinates (top-left origin) to PDF points (bottom-left origin). -/
def convertCoordinates (coordinate : Rect) (pageWidth pageHeight : ℚ) : Rect :=
  let boxLeftPt := coordinate.x * pageWidth
  let boxTopPt := coordinate.y * pageHeight
  let boxWidthPt := coordinate.width * pageWidth
  let boxHeightPt := coordinate.height * pageHeight
  let boxBottomPt := pageHeight - (boxTopPt + boxHeightPt)
  { x := boxLeftPt, y := boxBottomPt, width := boxWidthPt, height := boxHeightPt }

/-- `fitImageInBox` from backend/server.js: fit content of intrinsic size
`imgWidth × imgHeight` inside the destination box, preserving aspect
and centering (CSS object-fit contain semantics). -/
def fitImageInBox (imgWidth imgHeight boxWidth boxHeight boxX boxY : ℚ) : Rect :=
  let scale := min (boxWidth / imgWidth) (boxHeight / imgHeight)
  let drawWidth := imgWidth * scale
  let drawHeight := imgHeight * scale
  let drawX := boxX + (boxWidth - drawWidth) / 2
  let drawY := boxY + (boxHeight - drawHeight) / 2
  { x := drawX, y := drawY, width := drawWidth, height := drawHeight }

/-- `sanitizeTextForPdf` from backend/server.js: a non-string becomes `""`;
in a string every character outside the code-point range 0x00–0x7F is
replaced with a question mark (the regex `[^\x00-\x7F]` applied with `/g`). -/
def sanitizeTextForPdf : JsValue → String
  | .str s => ⟨s.data.map (fun c => if c.toNat ≤ 0x7F then c else '?')⟩
  | _ => ""

/-- True when every character of the string is ASCII (code point ≤ 0x7F). -/
def asciiString (s : String) : Bool :=
  s.data.all (fun c => c.toNat ≤ 0x7F)

/-- A field record of the `/sign-pdf` request body (the geometry-relevant
properties). `page` is `none` when the property is absent or `null`. -/
structure Field where
  type : String
  page : Option Int
  x : ℚ
  y : ℚ
  width : ℚ
  height : ℚ
  value : JsValue
deriving Repr, DecidableEq

/-- The rectangle properties of a field, as read by
`convertCoordinates(field, pageWidth, pageHeight)`. -/
def Field.coord (f : Field) : Rect :=
  { x := f.x, y := f.y, width := f.width, height := f.height }

/-- A drawing primitive issued to a PDF page (geometric payload of
`page.drawImage` / `drawText` / `drawRectangle` / `drawLine` / `drawEllipse`). -/
inductive DrawOp where
  | drawImage (x y width height : ℚ)
  | drawText (text : String) (x y size : ℚ)
  | drawRectangle (x y width height : ℚ)
  | drawLine (x1 y1 x2 y2 : ℚ)
  | drawEllipse (x y xScale yScale : ℚ)
deriving Repr, DecidableEq

/-- True when the operation carries no text, or only ASCII text. -/
def DrawOp.asciiOk : DrawOp → Bool
  | .drawText s _ _ _ => asciiString s
  | _ => true

/-- A PDF page: its size in points and the drawing operations applied so far. -/
structure Page where
  pageWidth : ℚ
  pageHeight : ℚ
  ops : List DrawOp
deriving Repr, DecidableEq

/-- The external pdf-lib embedding entry points, as used by the image branch
of the signing loop: from the base64 payload to the intrinsic dimensions of
the embedded image, `none` when embedding throws (the error is caught). -/
structure PdfLib where
  embedPng : String → Option (ℚ × ℚ)
  embedJpg : String → Option (ℚ × ℚ)

/-- The 0-based page index computed by the signing loop:
`(field.page || 1) - 1`, with `none` (absent/null) and `0` both falsy. -/
def pageIndexOf (f : Field) : Int :=
  (match f.page with
   | none => 1
   | some n => if n = 0 then 1 else n) - 1

/-- The per-field-type rendering dispatch of the `/sign-pdf` loop in
backend/server.js: the drawing operations produced for one field, given the
already-converted absolute box. Branch guards mirror the JavaScript
`if / else if` chain on `field.type` (the type comparisons are mutually
exclusive, so nesting the `&&`-guards inside each type test is
observationally identical to the flat chain). A branch that the source
skips — missing signature image, falsy text value, unparsable or
unsupported image data (whose thrown error is caught) — produces `[]`. -/
def renderField (lib : PdfLib) (sig : Option (ℚ × ℚ)) (box : Rect) (f : Field) :
    List DrawOp :=
  if f.type = "signature" then
    match sig with
    | some dims =>
      let fit := fitImageInBox dims.1 dims.2 box.width box.height box.x box.y
      [.drawImage fit.x fit.y fit.width fit.height]
    | none => []
  else if f.type = "text" then
    if f.value.truthy then
      let safeText := sanitizeTextForPdf f.value
      let fontSize := min (box.height * 0.6) 16
      [.drawText safeText box.x (box.y + (box.height - fontSize) / 2) fontSize]
    else []
  else if f.type = "date" then
    if f.value.truthy then
      let safeText := sanitizeTextForPdf f.value
      let fontSize := min (box.height * 0.6) 16
      [.drawText safeText box.x (box.y + (box.height - fontSize) / 2) fontSize]
    else []
  else if f.type = "checkbox" then
    let size := min box.width box.height * 0.6
    let x := box.x + (box.width - size) / 2
    let y := box.y + (box.height - size) / 2
    let border := [DrawOp.drawRectangle x y size size]
    if f.value.truthy then
      border ++
        [.drawLine (x + size * 0.2) (y + size * 0.45) (x + size * 0.45) (y + size * 0.2),
         .drawLine (x + size * 0.45) (y + size * 0.2) (x + size * 0.8) (y + size * 0.75)]
    else border
  else if f.type = "radio" then
    let size := min box.width box.height * 0.6
    let cx := box.x + box.width / 2
    let cy := box.y + box.height / 2
    let radius := size / 2
    let outer := [DrawOp.drawEllipse cx cy radius radius]
    if f.value.truthy then
      outer ++ [.drawEllipse cx cy (radius * 0.5) (radius * 0.5)]
    else outer
  else if f.type = "image" then
    if f.value.truthy then
      match f.value with
      | .str v =>
        match (v.splitOn ",").get? 1 with
        | none => []
        | some b64 =>
          if v.startsWith "data:image/png" then
            match lib.embedPng b64 with
            | some dims =>
              let fit := fitImageInBox dims.1 dims.2 box.width box.height box.x box.y
              [.drawImage fit.x fit.y fit.width fit.height]
            | none => []
          else if v.startsWith "data:image/jpeg" ∨ v.startsWith "data:image/jpg" then
            match lib.embedJpg b64 with
            | some dims =>
              let fit := fitImageInBox dims.1 dims.2 box.width box.height box.x box.y
              [.drawImage fit.x fit.y fit.width fit.height]
            | none => []
          else []
      | _ => []
    else []
  else []

/-- One iteration of the `/sign-pdf` field loop: resolve the page index,
skip the field when the index is out of range, otherwise convert the
field's normalized box against that page's size and append the rendered
operations to the page. -/
def processField (lib : PdfLib) (sig : Option (ℚ × ℚ)) (doc : List Page)
    (f : Field) : List Page :=
  if pageIndexOf f < 0 ∨ (doc.length : Int) ≤ pageIndexOf f then doc
  else
    match doc.get? (pageIndexOf f).toNat with
    | none => doc
    | some page =>
      doc.set (pageIndexOf f).toNat
        { page with
          ops := page.ops ++ renderField lib sig
              (convertCoordinates f.coord page.pageWidth page.pageHeight) f }

/-- The `/sign-pdf` field loop: fields applied in input order. -/
def processFields (lib : PdfLib) (sig : Option (ℚ × ℚ)) (doc : List Page)
    (fields : List Field) : List Page :=
  fields.foldl (processField lib sig) doc

/-- The `(contentWidth, contentHeight)` argument pairs passed to
`fitImageInBox` while rendering one field (instrumentation of the same
branch structure as `renderField`). -/
def fitCallsRender (lib : PdfLib) (sig : Option (ℚ × ℚ)) (f : Field) :
    List (ℚ × ℚ) :=
  if f.type = "signature" then
    match sig with
    | some dims => [dims]
    | none => []
  else if f.type = "image" then
    if f.value.truthy then
      match f.value with
      | .str v =>
        match (v.splitOn ",").get? 1 with
        | none => []
        | some b64 =>
          if v.startsWith "data:image/png" then
            match lib.embedPng b64 with
            | some dims => [dims]
            | none => []
          else if v.startsWith "data:image/jpeg" ∨ v.startsWith "data:image/jpg" then
            match lib.embedJpg b64 with
            | some dims => [dims]
            | none => []
          else []
      | _ => []
    else []
  else []

/-- The `(contentWidth, contentHeight)` argument pairs passed to
`fitImageInBox` while the signing loop processes one field of a document
(the call happens only when the field's page index is in range). -/
def fitCallsForField (lib : PdfLib) (sig : Option (ℚ × ℚ)) (doc : List Page)
    (f : Field) : List (ℚ × ℚ) :=
  if pageIndexOf f < 0 ∨ (doc.length : Int) ≤ pageIndexOf f then []
  else fitCallsRender lib sig f

/-- Modelled from the spec: the clamp operation named in the layout table,
`clamp(v, lo, hi) = max lo (min v hi)`. This definition follows the spec's
words (no clamp exists in the source) and is used only to compare the
spec's claimed mark sizes against the rendered ones. -/
def specClamp (v lo hi : ℚ) : ℚ := max lo (min v hi)

/-- Modelled from the spec: the checkbox mark side the spec's layout table
claims, `clamp(min(boxWidth,boxHeight) * 0.6, 8, 14)`. -/
def specCheckboxSide (box : Rect) : ℚ :=
  specClamp (min box.width box.height * 0.6) 8 14

/-- Modelled from the spec: the radio outer radius the spec's layout table
claims, `clamp(min(boxWidth,boxHeight) * 0.3, 4, 8)`. -/
def specRadioRadius (box : Rect) : ℚ :=
  specClamp (min box.width box.height * 0.3) 4 8

/-- C1: for every field box `{x, y, width, height}` and page size in points,
`convertCoordinates` returns exactly
`{x: x*pageWidth, y: pageHeight - (y*pageHeight + height*pageHeight),
width: width*pageWidth, height: height*pageHeight}`; in particular a
612×792pt page and field `{x:0.1, y:0.1, width:0.2, height:0.05}` give
`{x:61.2, y:673.2, width:122.4, height:39.6}`. -/
theorem convertCoordinates_formula (c : Rect) (pageWidth pageHeight : ℚ) :
    convertCoordinates c pageWidth pageHeight =
      { x := c.x * pageWidth,
        y := pageHeight - (c.y * pageHeight + c.height * pageHeight),
        width := c.width * pageWidth,
        height := c.height * pageHeight } ∧
    convertCoordinates ⟨0.1, 0.1, 0.2, 0.05⟩ 612 792 = ⟨61.2, 673.2, 122.4, 39.6⟩ :=
  ⟨rfl, by norm_num [convertCoordinates, Rect.mk.injEq]⟩

/-- C5: `convertCoordinates` applies the same affine transform to every
well-typed input with no clamping, rejection, or validation: the formula
holds unconditionally, degenerate (zero) and inverted (negative) widths and
heights pass through with their sign, and fractions outside [0,1] are
accepted (the total Lean function never raises by construction). -/
theorem convertCoordinates_no_validation (c : Rect) (pageW pageH : ℚ) :
    convertCoordinates c pageW pageH =
      { x := c.x * pageW,
        y := pageH - (c.y * pageH + c.height * pageH),
        width := c.width * pageW,
        height := c.height * pageH } ∧
    (c.width < 0 → 0 < pageW → (convertCoordinates c pageW pageH).width < 0) ∧
    (c.height < 0 → 0 < pageH → (convertCoordinates c pageW pageH).height < 0) ∧
    (c.width = 0 → (convertCoordinates c pageW pageH).width = 0) ∧
    (c.height = 0 → (convertCoordinates c pageW pageH).height = 0) := by
  refine ⟨rfl, ?_, ?_, ?_, ?_⟩
  · intro hneg hpos
    simpa [convertCoordinates] using mul_neg_of_neg_of_pos hneg hpos
  · intro hneg hpos
    simpa [convertCoordinates] using mul_neg_of_neg_of_pos hneg hpos
  · intro h0
    simp [convertCoordinates, h0]
  · intro h0
    simp [convertCoordinates, h0]

/-- Witness for C5 at a malformed-but-well-typed input: the field
`{x:2, y:-1, width:-1/2, height:0}` on a 100×50 page has width fraction
below zero and x fraction above one, and the inverted width passes through
as a negative output width. -/
theorem convertCoordinates_no_validation_witness :
    ((-1 : ℚ)/2 < 0 ∧ (0 : ℚ) < 100) ∧
    (convertCoordinates ⟨2, -1, -1/2, 0⟩ 100 50).width < 0 :=
  ⟨⟨by norm_num, by norm_num⟩,
    (convertCoordinates_no_validation ⟨2, -1, -1/2, 0⟩ 100 50).2.1
      (by norm_num) (by norm_num)⟩

/-- C6: for every box and page size the converted box satisfies the
bottom-edge invariant `y + height = pageH - box.y * pageH`, and the
full-page box `{0, 0, 1, 1}` converts exactly to `{0, 0, pageW, pageH}`. -/
theorem convertCoordinates_bottom_edge (c : Rect) (pageW pageH : ℚ) :
    (convertCoordinates c pageW pageH).y + (convertCoordinates c pageW pageH).height
      = pageH - c.y * pageH ∧
    convertCoordinates ⟨0, 0, 1, 1⟩ pageW pageH = ⟨0, 0, pageW, pageH⟩ := by
  constructor
  · simp only [convertCoordinates]
    ring
  · simp only [convertCoordinates, Rect.mk.injEq]
    refine ⟨by ring, by ring, by ring, by ring⟩

/-- C2: for strictly positive content dimensions and a non-negative box,
`fitImageInBox` returns the largest rectangle that preserves the content's
aspect ratio (stated by cross-multiplication, and as a ratio of divisions
when the box is non-degenerate), fits entirely inside the box, and is
centered with equal margins on each axis. -/
theorem fitImageInBox_contain (cw ch bw bh bx bY w h : ℚ)
    (hcw : 0 < cw) (hch : 0 < ch) (hbw : 0 ≤ bw) (hbh : 0 ≤ bh) :
    (fitImageInBox cw ch bw bh bx bY).width * ch
        = (fitImageInBox cw ch bw bh bx bY).height * cw ∧
    (fitImageInBox cw ch bw bh bx bY).width ≤ bw ∧
    (fitImageInBox cw ch bw bh bx bY).height ≤ bh ∧
    bx ≤ (fitImageInBox cw ch bw bh bx bY).x ∧
    (fitImageInBox cw ch bw bh bx bY).x + (fitImageInBox cw ch bw bh bx bY).width
        ≤ bx + bw ∧
    bY ≤ (fitImageInBox cw ch bw bh bx bY).y ∧
    (fitImageInBox cw ch bw bh bx bY).y + (fitImageInBox cw ch bw bh bx bY).height
        ≤ bY + bh ∧
    (fitImageInBox cw ch bw bh bx bY).x - bx
        = bw - (fitImageInBox cw ch bw bh bx bY).width
            - ((fitImageInBox cw ch bw bh bx bY).x - bx) ∧
    (fitImageInBox cw ch bw bh bx bY).y - bY
        = bh - (fitImageInBox cw ch bw bh bx bY).height
            - ((fitImageInBox cw ch bw bh bx bY).y - bY) ∧
    (0 < bw → 0 < bh →
      (fitImageInBox cw ch bw bh bx bY).width / (fitImageInBox cw ch bw bh bx bY).height
        = cw / ch) ∧
    (0 ≤ w → w * ch = h * cw → w ≤ bw → h ≤ bh →
      w ≤ (fitImageInBox cw ch bw bh bx bY).width ∧
      h ≤ (fitImageInBox cw ch bw bh bx bY).height) := by
  have hproj : fitImageInBox cw ch bw bh bx bY =
      ⟨bx + (bw - cw * min (bw / cw) (bh / ch)) / 2,
       bY + (bh - ch * min (bw / cw) (bh / ch)) / 2,
       cw * min (bw / cw) (bh / ch),
       ch * min (bw / cw) (bh / ch)⟩ := rfl
  rw [hproj]
  dsimp only
  have hs0 : 0 ≤ min (bw / cw) (bh / ch) :=
    le_min (div_nonneg hbw hcw.le) (div_nonneg hbh hch.le)
  have hwle : cw * min (bw / cw) (bh / ch) ≤ bw := by
    calc cw * min (bw / cw) (bh / ch) ≤ cw * (bw / cw) :=
          mul_le_mul_of_nonneg_left (min_le_left _ _) hcw.le
      _ = bw := by field_simp
  have hhle : ch * min (bw / cw) (bh / ch) ≤ bh := by
    calc ch * min (bw / cw) (bh / ch) ≤ ch * (bh / ch) :=
          mul_le_mul_of_nonneg_left (min_le_right _ _) hch.le
      _ = bh := by field_simp
  refine ⟨by ring, hwle, hhle, by linarith, by linarith, by linarith, by linarith,
    by ring, by ring, ?_, ?_⟩
  · intro hbw0 hbh0
    have hspos : 0 < min (bw / cw) (bh / ch) :=
      lt_min (div_pos hbw0 hcw) (div_pos hbh0 hch)
    rw [mul_comm cw _, mul_comm ch _, mul_div_mul_left _ _ hspos.ne']
  · intro hw0 haspect hwb hhb
    have hwdiv : w / cw ≤ min (bw / cw) (bh / ch) := by
      refine le_min ?_ ?_
      · exact div_le_div_of_nonneg_right hwb hcw.le
      · have heq : w / cw = h / ch := (div_eq_div_iff hcw.ne' hch.ne').mpr haspect
        rw [heq]
        exact div_le_div_of_nonneg_right hhb hch.le
    have hhdiv : h / ch ≤ min (bw / cw) (bh / ch) := by
      have heq : w / cw = h / ch := (div_eq_div_iff hcw.ne' hch.ne').mpr haspect
      rw [← heq]
      exact hwdiv
    constructor
    · have := mul_le_mul_of_nonneg_left hwdiv hcw.le
      calc w = cw * (w / cw) := by field_simp
        _ ≤ cw * min (bw / cw) (bh / ch) := this
    · have := mul_le_mul_of_nonneg_left hhdiv hch.le
      calc h = ch * (h / ch) := by field_simp
        _ ≤ ch * min (bw / cw) (bh / ch) := this

/-- Witness for C2 at the spec's own example: content 800×400 fitted into
the 200×200 box at the origin preserves the 2:1 ratio, fits, and is
horizontally centered with equal margins. -/
theorem fitImageInBox_contain_witness :
    ((0 : ℚ) < 800 ∧ (0 : ℚ) < 400 ∧ (0 : ℚ) ≤ 200 ∧ (0 : ℚ) ≤ 200) ∧
    (fitImageInBox 800 400 200 200 0 0).width * 400
      = (fitImageInBox 800 400 200 200 0 0).height * 800 ∧
    (fitImageInBox 800 400 200 200 0 0).width ≤ 200 ∧
    (fitImageInBox 800 400 200 200 0 0).height ≤ 200 ∧
    (fitImageInBox 800 400 200 200 0 0).x - 0
      = 200 - (fitImageInBox 800 400 200 200 0 0).width
          - ((fitImageInBox 800 400 200 200 0 0).x - 0) := by
  have h := fitImageInBox_contain 800 400 200 200 (0 : ℚ) 0 100 50
    (by norm_num) (by norm_num) (by norm_num) (by norm_num)
  exact ⟨⟨by norm_num, by norm_num, by norm_num, by norm_num⟩,
    h.1, h.2.1, h.2.2.1, h.2.2.2.2.2.2.2.1⟩

/-- Setting a list position to the value it already holds is the identity. -/
theorem set_get?_eq_self {α : Type} (l : List α) (i : Nat) (a : α)
    (h : l.get? i = some a) : l.set i a = l := by
  induction l generalizing i with
  | nil => simp [List.get?] at h
  | cons x xs ih =>
    cases i with
    | zero =>
      simp only [List.get?] at h
      cases h
      simp
    | succ n =>
      simp only [List.get?] at h
      simpa using ih n h

/-- Processing one field never changes the number of pages. -/
theorem length_processField (lib : PdfLib) (sig : Option (ℚ × ℚ))
    (doc : List Page) (f : Field) :
    (processField lib sig doc f).length = doc.length := by
  unfold processField
  split
  · rfl
  · split
    · rfl
    · simp [List.length_set]

/-- Processing a batch of fields never changes the number of pages. -/
theorem length_processFields (lib : PdfLib) (sig : Option (ℚ × ℚ))
    (doc : List Page) (fields : List Field) :
    (processFields lib sig doc fields).length = doc.length := by
  induction fields generalizing doc with
  | nil => rfl
  | cons f fs ih =>
    unfold processFields at ih ⊢
    rw [List.foldl_cons, ih, length_processField]

/-- A field whose page index is out of range, or whose rendering produces no
operations for any box, leaves the document exactly as it was. -/
theorem processField_skip (lib : PdfLib) (sig : Option (ℚ × ℚ))
    (doc : List Page) (bad : Field)
    (hbad : pageIndexOf bad < 0 ∨ (doc.length : Int) ≤ pageIndexOf bad ∨
            ∀ box : Rect, renderField lib sig box bad = []) :
    processField lib sig doc bad = doc := by
  unfold processField
  rcases hbad with h | h | h
  · rw [if_pos (Or.inl h)]
  · rw [if_pos (Or.inr h)]
  · split
    · rfl
    · split
      · rfl
      · rename_i hrange page hpage
        rw [h, List.append_nil]
        exact set_get?_eq_self doc _ page hpage

/-- A pdf-lib environment in which every image embedding fails (every
thrown embedding error is caught by the loop and the field is skipped). -/
def pdfLibNone : PdfLib := ⟨fun _ => none, fun _ => none⟩

/-- A three-page document with distinct page sizes and no drawing yet. -/
def docThree : List Page := [⟨100, 100, []⟩, ⟨200, 200, []⟩, ⟨300, 300, []⟩]

/-- A renderable text field on page 1. -/
def fieldPageOne : Field := ⟨"text", some 1, 0.1, 0.1, 0.2, 0.1, .str "a"⟩

/-- A renderable checkbox field on page 3. -/
def fieldPageThree : Field := ⟨"checkbox", some 3, 0.1, 0.1, 0.2, 0.1, .bool true⟩

/-- A field placed on page 5, beyond a three-page document. -/
def fieldPageFive : Field := ⟨"text", some 5, 0.1, 0.1, 0.2, 0.1, .str "b"⟩

/-- C4: a field whose page index does not exist in the document, or whose
type/value combination renders nothing (empty text value, unparsable image
data, and every other skipped combination produces `[]` for every box), is
skipped without change, and every remaining field of the batch is applied
exactly as if the skipped field were absent; the loop is a total function,
so no field can raise. -/
theorem skipped_field_leaves_batch_unchanged (lib : PdfLib) (sig : Option (ℚ × ℚ))
    (doc : List Page) (xs ys : List Field) (bad : Field)
    (hbad : pageIndexOf bad < 0 ∨ (doc.length : Int) ≤ pageIndexOf bad ∨
            ∀ box : Rect, renderField lib sig box bad = []) :
    processFields lib sig doc (xs ++ bad :: ys) = processFields lib sig doc (xs ++ ys) := by
  unfold processFields
  rw [List.foldl_append, List.foldl_append, List.foldl_cons]
  congr 1
  apply processField_skip
  rcases hbad with h | h | h
  · exact Or.inl h
  · refine Or.inr (Or.inl ?_)
    have hlen := length_processFields lib sig doc xs
    unfold processFields at hlen
    rw [hlen]
    exact h
  · exact Or.inr (Or.inr h)

/-- Witness for C4: in a three-page document, a text field on page 5 is
skipped and the fields on pages 1 and 3 are applied exactly as if the
page-5 field were absent. -/
theorem skipped_field_witness :
    ((docThree.length : Int) ≤ pageIndexOf fieldPageFive) ∧
    processFields pdfLibNone none docThree [fieldPageOne, fieldPageFive, fieldPageThree]
      = processFields pdfLibNone none docThree [fieldPageOne, fieldPageThree] :=
  ⟨by simp [docThree, pageIndexOf, fieldPageFive],
   skipped_field_leaves_batch_unchanged pdfLibNone none docThree
     [fieldPageOne] [fieldPageThree] fieldPageFive
     (Or.inr (Or.inl (by simp [docThree, pageIndexOf, fieldPageFive])))⟩

/-- C10: a field whose `page` property is absent, `null`, or `0` (all falsy)
is treated as placed on page 1: the loop computes page index
`(field.page || 1) - 1 = 0` and processes the field exactly like the same
field with `page: 1`, rather than skipping it or raising. -/
theorem falsy_page_defaults_to_page_one (lib : PdfLib) (sig : Option (ℚ × ℚ))
    (doc : List Page) (f : Field) (hf : f.page = none ∨ f.page = some 0) :
    pageIndexOf f = 0 ∧
    processField lib sig doc f = processField lib sig doc { f with page := some 1 } := by
  have h0 : pageIndexOf f = 0 := by
    rcases hf with h | h <;> simp [pageIndexOf, h]
  have h1 : pageIndexOf { f with page := some 1 } = 0 := by
    simp [pageIndexOf]
  refine ⟨h0, ?_⟩
  unfold processField
  rw [h0, h1]
  rfl

/-- A text field with no `page` property. -/
def fieldNoPage : Field := ⟨"text", none, 0.1, 0.1, 0.2, 0.1, .str "hello"⟩

/-- Witness for C10: the pageless text field lands on page 1 of a one-page
document, identically to the same field with `page: 1`. -/
theorem falsy_page_witness :
    fieldNoPage.page = none ∧
    pageIndexOf fieldNoPage = 0 ∧
    processField pdfLibNone none [⟨612, 792, []⟩] fieldNoPage
      = processField pdfLibNone none [⟨612, 792, []⟩] { fieldNoPage with page := some 1 } :=
  ⟨rfl,
   (falsy_page_defaults_to_page_one pdfLibNone none [⟨612, 792, []⟩] fieldNoPage (Or.inl rfl)).1,
   (falsy_page_defaults_to_page_one pdfLibNone none [⟨612, 792, []⟩] fieldNoPage (Or.inl rfl)).2⟩

/-- An unchecked checkbox field covering a tenth of each page dimension. -/
def checkboxSmall : Field := ⟨"checkbox", some 1, 0, 0.9, 0.1, 0.1, .bool false⟩

/-- An unselected radio field covering a tenth of each page dimension. -/
def radioSmall : Field := ⟨"radio", some 1, 0, 0.9, 0.1, 0.1, .bool false⟩

/-- Counterexample to C3: on a 100×100pt page the field
`{x:0, y:0.9, width:0.1, height:0.1}` converts to a 10×10pt box; the code
draws the checkbox border as a square of side `min(10,10)*0.6 = 6`pt and
the radio outer circle with radius `3`pt, while the claimed clamps
`clamp(6, 8, 14) = 8` and `clamp(3, 4, 8) = 4` demand 8pt and 4pt: the
rendered mark drops below the claimed lower clamp, so no clamping exists. -/
theorem checkbox_clamp_counterexample :
    renderField pdfLibNone none (convertCoordinates ⟨0, 0.9, 0.1, 0.1⟩ 100 100)
        checkboxSmall
      = [DrawOp.drawRectangle 2 2 6 6] ∧
    specCheckboxSide (convertCoordinates ⟨0, 0.9, 0.1, 0.1⟩ 100 100) = 8 ∧
    renderField pdfLibNone none (convertCoordinates ⟨0, 0.9, 0.1, 0.1⟩ 100 100)
        radioSmall
      = [DrawOp.drawEllipse 5 5 3 3] ∧
    specRadioRadius (convertCoordinates ⟨0, 0.9, 0.1, 0.1⟩ 100 100) = 4 ∧
    (6 : ℚ) ≠ 8 ∧ (3 : ℚ) ≠ 4 := by
  refine ⟨?_, ?_, ?_, ?_, by norm_num, by norm_num⟩ <;>
    (norm_num [renderField, convertCoordinates, specCheckboxSide, specRadioRadius,
      specClamp, checkboxSmall, radioSmall, JsValue.truthy, Rect.mk.injEq,
      DrawOp.drawRectangle.injEq, DrawOp.drawEllipse.injEq]
     try simp)

/-- C3 (amended): for every converted field box, the checkbox mark is a
square of side `min(boxWidth, boxHeight) * 0.6` points and the radio mark
an outer circle of radius `min(boxWidth, boxHeight) * 0.6 / 2 =
min(boxWidth, boxHeight) * 0.3` points, both centered in the box, with no
clamping: the mark scales linearly with the box and is bounded neither
below by 8pt/4pt nor above by 14pt/8pt. -/
theorem checkbox_radio_mark_size (lib : PdfLib) (sig : Option (ℚ × ℚ)) (box : Rect)
    (f g : Field) (hf : f.type = "checkbox") (hg : g.type = "radio") :
    (renderField lib sig box f).head? = some (.drawRectangle
        (box.x + (box.width - min box.width box.height * 0.6) / 2)
        (box.y + (box.height - min box.width box.height * 0.6) / 2)
        (min box.width box.height * 0.6) (min box.width box.height * 0.6)) ∧
    (renderField lib sig box g).head? = some (.drawEllipse
        (box.x + box.width / 2) (box.y + box.height / 2)
        (min box.width box.height * 0.6 / 2) (min box.width box.height * 0.6 / 2)) := by
  constructor
  · cases hv : f.value.truthy <;> simp [renderField, hf, hv]
  · cases hv : g.value.truthy <;> simp [renderField, hg, hv]

/-- Witness for C3 (amended) on a concrete 10×10pt box at the origin:
mark side 6pt, radio radius 3pt, both centered. -/
theorem checkbox_radio_mark_size_witness :
    (renderField pdfLibNone none ⟨0, 0, 10, 10⟩ checkboxSmall).head?
      = some (DrawOp.drawRectangle 2 2 6 6) ∧
    (renderField pdfLibNone none ⟨0, 0, 10, 10⟩ radioSmall).head?
      = some (DrawOp.drawEllipse 5 5 3 3) := by
  have h := checkbox_radio_mark_size pdfLibNone none ⟨0, 0, 10, 10⟩
    checkboxSmall radioSmall rfl rfl
  refine ⟨?_, ?_⟩
  · rw [h.1]
    norm_num [DrawOp.drawRectangle.injEq]
  · rw [h.2]
    norm_num [DrawOp.drawEllipse.injEq]

/-- Counterexample to C8's left inset: on the box `{x:5, y:8, width:100,
height:20}` the text field with value "hi" is drawn at x = 5, exactly the
box's left edge — the left inset is zero, not a small positive inset. -/
theorem text_left_inset_counterexample :
    renderField pdfLibNone none ⟨5, 8, 100, 20⟩ ⟨"text", some 1, 0, 0, 0, 0, .str "hi"⟩
      = [DrawOp.drawText "hi" 5 12 12] ∧
    (5 : ℚ) - (Rect.mk 5 8 100 20).x = 0 := by
  constructor
  · simp only [renderField, JsValue.truthy]
    norm_num [DrawOp.drawText.injEq]
    decide
  · norm_num

/-- C8 (amended): every text or date field with a truthy value is rendered
as a single text operation with font size `min(boxHeight * 0.6, 16)`,
drawn left-aligned at exactly `x = boxX` (no left inset) and vertically
centered at `y = boxY + (boxHeight - fontSize) / 2`, the text being the
sanitized value. -/
theorem text_date_layout (lib : PdfLib) (sig : Option (ℚ × ℚ)) (box : Rect)
    (f : Field) (hf : f.type = "text" ∨ f.type = "date")
    (hv : f.value.truthy = true) :
    renderField lib sig box f =
      [.drawText (sanitizeTextForPdf f.value) box.x
        (box.y + (box.height - min (box.height * 0.6) 16) / 2)
        (min (box.height * 0.6) 16)] := by
  rcases hf with hf | hf <;> simp [renderField, hf, hv]

/-- Witness for C8 (amended) at a concrete date field on a 100×20pt box:
font size 12pt, drawn at the box's left edge, vertically centered. -/
theorem text_date_layout_witness :
    ((⟨"date", some 1, 0, 0, 0, 0, .str "2024-01-01"⟩ : Field).value.truthy = true) ∧
    renderField pdfLibNone none ⟨5, 8, 100, 20⟩ ⟨"date", some 1, 0, 0, 0, 0, .str "2024-01-01"⟩
      = [.drawText (sanitizeTextForPdf (.str "2024-01-01")) (5 : ℚ)
          ((8 : ℚ) + ((20 : ℚ) - min ((20 : ℚ) * 0.6) 16) / 2)
          (min ((20 : ℚ) * 0.6) 16)] :=
  ⟨rfl,
   text_date_layout pdfLibNone none ⟨5, 8, 100, 20⟩
     ⟨"date", some 1, 0, 0, 0, 0, .str "2024-01-01"⟩ (Or.inr rfl) rfl⟩

/-- The sanitized text is always pure ASCII. -/
theorem asciiString_sanitizeTextForPdf (v : JsValue) :
    asciiString (sanitizeTextForPdf v) = true := by
  cases v with
  | str s =>
    simp only [sanitizeTextForPdf, asciiString, List.all_eq_true, List.mem_map]
    rintro c ⟨a, -, rfl⟩
    by_cases h : a.toNat ≤ 0x7F <;> simp [h]
  | num q => rfl
  | bool b => rfl
  | null => rfl
  | undefined => rfl

/-- Every operation produced by the rendering dispatch carries only ASCII
text: the only text-drawing branches (text and date) draw the sanitized
value. -/
theorem renderField_ascii (lib : PdfLib) (sig : Option (ℚ × ℚ)) (box : Rect)
    (f : Field) : ∀ op ∈ renderField lib sig box f, op.asciiOk = true := by
  intro op hop
  simp only [renderField, List.cons_append, List.nil_append] at hop
  repeat' split at hop
  all_goals
    simp only [List.mem_singleton, List.mem_cons, List.not_mem_nil, or_false] at hop
  all_goals
    rcases hop with rfl | rfl | rfl <;>
      simp [DrawOp.asciiOk, asciiString_sanitizeTextForPdf]

/-- Processing one field preserves page-wise ASCII-only text operations. -/
theorem processField_ascii (lib : PdfLib) (sig : Option (ℚ × ℚ))
    (doc : List Page) (f : Field)
    (hdoc : ∀ p ∈ doc, ∀ op ∈ p.ops, op.asciiOk = true) :
    ∀ p ∈ processField lib sig doc f, ∀ op ∈ p.ops, op.asciiOk = true := by
  unfold processField
  split
  · exact hdoc
  · split
    · exact hdoc
    · rename_i hrange page hpage
      intro p hp op hop
      rcases List.mem_or_eq_of_mem_set hp with hp | rfl
      · exact hdoc p hp op hop
      · rcases List.mem_append.mp hop with h | h
        · exact hdoc page (List.get?_mem hpage) op h
        · exact renderField_ascii lib sig _ f op h

/-- Processing a batch of fields preserves page-wise ASCII-only text
operations. -/
theorem processFields_ascii (lib : PdfLib) (sig : Option (ℚ × ℚ))
    (doc : List Page) (fields : List Field)
    (hdoc : ∀ p ∈ doc, ∀ op ∈ p.ops, op.asciiOk = true) :
    ∀ p ∈ processFields lib sig doc fields, ∀ op ∈ p.ops, op.asciiOk = true := by
  induction fields generalizing doc with
  | nil => exact hdoc
  | cons f fs ih =>
    unfold processFields at ih ⊢
    rw [List.foldl_cons]
    exact ih (processField lib sig doc f) (processField_ascii lib sig doc f hdoc)

/-- C9: `sanitizeTextForPdf` maps every non-string to `""` and rewrites a
string position-by-position, keeping each ASCII character in place and
replacing each character above 0x7F with a question mark (so the length is
preserved); consequently every text operation the signing loop draws into
a document whose pages held only ASCII text is ASCII-only. -/
theorem sanitize_drawn_text_ascii (lib : PdfLib) (sig : Option (ℚ × ℚ))
    (doc : List Page) (fields : List Field) (v : JsValue) (s : String) (i : Nat)
    (hv : ∀ t : String, v ≠ JsValue.str t)
    (hdoc : ∀ p ∈ doc, ∀ op ∈ p.ops, op.asciiOk = true) :
    sanitizeTextForPdf v = "" ∧
    (sanitizeTextForPdf (JsValue.str s)).data[i]?
      = (s.data[i]?).map (fun c => if c.toNat ≤ 0x7F then c else '?') ∧
    ∀ p ∈ processFields lib sig doc fields, ∀ op ∈ p.ops, op.asciiOk = true := by
  refine ⟨?_, ?_, processFields_ascii lib sig doc fields hdoc⟩
  · cases v with
    | str t => exact absurd rfl (hv t)
    | num q => rfl
    | bool b => rfl
    | null => rfl
    | undefined => rfl
  · simp only [sanitizeTextForPdf]
    exact List.getElem?_map _ _ _

/-- Witness for C9: a `null` value sanitizes to `""`; in the string "héy"
the non-ASCII character at position 1 becomes a question mark while its
neighbours stay in place; and the loop applied to a one-page blank
document with that text field leaves only ASCII text operations. -/
theorem sanitize_drawn_text_ascii_witness :
    sanitizeTextForPdf JsValue.null = "" ∧
    (sanitizeTextForPdf (JsValue.str "héy")).data[1]?
      = (("héy" : String).data[1]?).map (fun c => if c.toNat ≤ 0x7F then c else '?') ∧
    ∀ p ∈ processFields pdfLibNone none [⟨612, 792, []⟩]
        [⟨"text", some 1, 0.1, 0.1, 0.2, 0.1, .str "héy"⟩],
      ∀ op ∈ p.ops, op.asciiOk = true :=
  sanitize_drawn_text_ascii pdfLibNone none [⟨612, 792, []⟩]
    [⟨"text", some 1, 0.1, 0.1, 0.2, 0.1, .str "héy"⟩] JsValue.null "héy" 1
    (fun t h => JsValue.noConfusion h)
    (by simp)

/-- A signature field placed on page 1. -/
def signatureField : Field := ⟨"signature", some 1, 0.1, 0.1, 0.2, 0.1, .null⟩

/-- Counterexample to C7: no call site checks the embedded content's
dimensions. With an embedded signature image of intrinsic size 0×5, the
signing loop passes contentWidth = 0 straight to `fitImageInBox`: the
claimed guarantee that every call receives nonzero dimensions fails. -/
theorem fit_call_zero_dims_counterexample :
    ((0 : ℚ), (5 : ℚ)) ∈ fitCallsForField pdfLibNone (some (0, 5)) [⟨612, 792, []⟩]
        signatureField ∧
    ¬ ((0 : ℚ) ≠ 0) := by
  constructor
  · simp [fitCallsForField, fitCallsRender, pageIndexOf, signatureField]
  · simp

/-- Every content-dimension pair the rendering of one field hands to
`fitImageInBox` is exactly the dimensions of a successfully embedded
asset: the signature image or a successfully embedded PNG/JPEG — there is
no further check between embedding and the `fitImageInBox` call. -/
theorem mem_fitCallsRender (lib : PdfLib) (sig : Option (ℚ × ℚ)) (f : Field)
    (p : ℚ × ℚ) (hp : p ∈ fitCallsRender lib sig f) :
    sig = some p ∨ (∃ s, lib.embedPng s = some p) ∨ (∃ s, lib.embedJpg s = some p) := by
  unfold fitCallsRender at hp
  repeat' split at hp
  all_goals simp only [List.mem_singleton, List.not_mem_nil] at hp
  all_goals
    first
      | exact hp.elim
      | (subst hp
         first
           | exact Or.inl rfl
           | exact Or.inr (Or.inl ⟨_, by assumption⟩)
           | exact Or.inr (Or.inr ⟨_, by assumption⟩))

/-- C7 (amended): the signing loop performs no dimension check of its own
before calling `fitImageInBox`; the only guard is that an asset was
successfully embedded. Under the assumption that every successfully
embedded asset has nonzero intrinsic dimensions, every call the loop makes
to `fitImageInBox` receives nonzero content dimensions. -/
theorem fit_calls_nonzero_of_embedded_nonzero (lib : PdfLib) (sig : Option (ℚ × ℚ))
    (doc : List Page) (f : Field)
    (hsig : ∀ w h : ℚ, sig = some (w, h) → w ≠ 0 ∧ h ≠ 0)
    (hpng : ∀ (s : String) (w h : ℚ), lib.embedPng s = some (w, h) → w ≠ 0 ∧ h ≠ 0)
    (hjpg : ∀ (s : String) (w h : ℚ), lib.embedJpg s = some (w, h) → w ≠ 0 ∧ h ≠ 0) :
    ∀ p ∈ fitCallsForField lib sig doc f, p.1 ≠ 0 ∧ p.2 ≠ 0 := by
  intro p hp
  unfold fitCallsForField at hp
  split at hp
  · exact absurd hp (List.not_mem_nil p)
  · rcases mem_fitCallsRender lib sig f p hp with h | ⟨s, h⟩ | ⟨s, h⟩
    · exact hsig p.1 p.2 h
    · exact hpng s p.1 p.2 h
    · exact hjpg s p.1 p.2 h

/-- A pdf-lib environment whose PNG embedding always yields a 3×4 image
and whose JPEG embedding always fails. -/
def pdfLibPng : PdfLib := ⟨fun _ => some (3, 4), fun _ => none⟩

/-- Witness for C7 (amended): with a 3×4 signature image embedded, the
signature field's single `fitImageInBox` call receives the nonzero pair
(3, 4). -/
theorem fit_calls_nonzero_witness :
    ((3 : ℚ), (4 : ℚ)) ∈ fitCallsForField pdfLibPng (some (3, 4)) [⟨612, 792, []⟩]
        signatureField ∧
    ((3 : ℚ) ≠ 0 ∧ (4 : ℚ) ≠ 0) :=
  ⟨by simp [fitCallsForField, fitCallsRender, pageIndexOf, signatureField, pdfLibPng],
   fit_calls_nonzero_of_embedded_nonzero pdfLibPng (some (3, 4)) [⟨612, 792, []⟩]
     signatureField
     (by
       intro w h hw
       simp only [Option.some.injEq, Prod.mk.injEq] at hw
       obtain ⟨h1, h2⟩ := hw
       subst h1
       subst h2
       exact ⟨by norm_num, by norm_num⟩)
     (by
       intro s w h hw
       simp only [pdfLibPng, Option.some.injEq, Prod.mk.injEq] at hw
       obtain ⟨h1, h2⟩ := hw
       subst h1
       subst h2
       exact ⟨by norm_num, by norm_num⟩)
     (by
       intro s w h hw
       simp [pdfLibPng] at hw)
     ((3 : ℚ), (4 : ℚ))
     (by simp [fitCallsForField, fitCallsRender, pageIndexOf, signatureField, pdfLibPng])⟩

end PdfSign
